import Mathlib

/-!
Shallow embedding of `main.py` of the `ghtrack` repository: a GitHub activity
tracker that fans out four search walks, fetches per-item commit/comment
details, filters them by author and a 7-day recency window, merges the
results into two keyed maps, and renders a report.

Modelling conventions:
* Python `str` values that flow through `str.replace` / `str.split` are
  modelled as `List Char` (Python strings are sequences of code points);
  other strings stay `String`.
* Timestamps are Unix seconds as `Int`; `datetime.now(tz) - timedelta(days=d)`
  becomes `now - d * 86400` on the same absolute time line.
* An HTTP response is `Resp α`: either a completed request carrying a status
  code and a parsed JSON body, or a raised transport/parsing exception.
* The unbounded `while True` pagination loops are given a fuel argument;
  every theorem quantifies over the fuel.
* Python `try`/`except` is threaded as `Except String`: the body of a task
  computes in `Except`, and the `except` clause maps an error to `None`.
-/

namespace GhTrack

/-- An HTTP response as the script observes it: `ok status body` is a
completed request (HTTP status code plus parsed JSON body); `exn msg` is a
raised transport or parsing exception (an `httpx` error or bad JSON). -/
inductive Resp (α : Type) where
  | ok (status : Nat) (body : α)
  | exn (msg : String)
  deriving DecidableEq

/-- Python `s.split('\n')[0]`: the first line of a commit message
(`main.py` line 42). -/
def firstLine : List Char → List Char
  | [] => []
  | c :: rest => if c = '\n' then [] else c :: firstLine rest

/-- Fuel-indexed worker for Python `s.replace(pat, '')`: removes every
left-to-right non-overlapping occurrence of `pat` from the remaining input.
Each step consumes at least one character, so fuel `s.length` suffices. -/
def stripAllFuel (pat : List Char) : Nat → List Char → List Char
  | 0, s => s
  | _ + 1, [] => []
  | fuel + 1, c :: rest =>
    if pat ≠ [] ∧ pat.isPrefixOf (c :: rest) then
      stripAllFuel pat fuel ((c :: rest).drop pat.length)
    else
      c :: stripAllFuel pat fuel rest

/-- Python `s.replace(pat, '')` (used to strip the API host from
`repository_url`, `main.py` lines 95 and 110). -/
def replaceAllEmpty (s pat : List Char) : List Char :=
  stripAllFuel pat s.length s

/-- `repo = item['repository_url'].replace('https://api.github.com/repos/', '')`. -/
def repoOf (repository_url : List Char) : List Char :=
  replaceAllEmpty repository_url "https://api.github.com/repos/".toList

/-- The composite identity `f"{repo}#{number}"` (`main.py` lines 46, 184). -/
def keyOf (repo : List Char) (number : Nat) : List Char :=
  repo ++ ['#'] ++ (toString number).toList

/-- The recency filter of `main.py` lines 38 and 141:
`date >= datetime.now(tz) - timedelta(days=days)`, on Unix seconds. -/
def withinWindow (now days date : Int) : Bool :=
  decide (now - days * 86400 ≤ date)

/-- Comment-body truncation of `main.py` lines 144 and 178:
`body[:100] + ('...' if len(body) > 100 else '')`. -/
def truncBody (body : List Char) : List Char :=
  body.take 100 ++ (if body.length > 100 then "...".toList else [])

/-- Python truthiness of an optional JSON string field: `None` and the empty
string are falsy, any other string is truthy. -/
def pyTruthy : Option String → Bool
  | none => false
  | some s => !s.isEmpty

/-- State derivation on the authored path (`main.py` lines 48-50):
`state = pr['state']`, upgraded to `'merged'` when the state is `'closed'`
and `pr['pull_request']['merged_at']` is truthy. -/
def deriveStatePr (state : String) (merged_at : Option String) : String :=
  if state == "closed" && pyTruthy merged_at then "merged" else state

/-- State derivation on the commentary path (`main.py` lines 186-188): same
upgrade, additionally guarded by `not is_issue`. -/
def deriveStateItem (state : String) (is_issue : Bool) (merged_at : Option String) : String :=
  if !is_issue && state == "closed" && pyTruthy merged_at then "merged" else state

/-- A qualifying commit entry (`main.py` lines 39-43). -/
structure CommitEntry where
  sha : List Char
  date : Int
  message : List Char
  deriving DecidableEq

/-- A qualifying comment entry (`main.py` lines 142-145, 176-179). -/
structure CommentEntry where
  date : Int
  body : List Char
  deriving DecidableEq

/-- The `data` payload of an activity record (`main.py` lines 54-63,
192-204). Authored records carry `comments = []` and
`review_comments = []` (Python reads the latter through `.get(..., [])`). -/
structure ItemData where
  repo : List Char
  number : Nat
  title : String
  url : String
  state : String
  is_author : Bool
  is_issue : Bool
  commits : List CommitEntry
  comments : List CommentEntry
  review_comments : List CommentEntry
  deriving DecidableEq

/-- A record appended to the shared `all_results` list. -/
structure ActivityRecord where
  key : List Char
  data : ItemData
  deriving DecidableEq

/-- A search-result item as consumed by the detail fetchers: the JSON fields
of `pr` / `item` that the code reads. `merged_at` models
`item.get('pull_request', {}).get('merged_at')`. -/
structure SearchItem where
  repository_url : List Char
  number : Nat
  title : String
  html_url : String
  state : String
  merged_at : Option String
  deriving DecidableEq

/-- A raw commit from the PR-commits endpoint: `commit['author']['login']`
(absent author or login collapses to `none`), the authored date, sha and
message. -/
structure RawCommit where
  author_login : Option String
  date : Int
  sha : List Char
  message : List Char
  deriving DecidableEq

/-- A raw comment from the comments / review-comments endpoints. -/
structure RawComment where
  user_login : String
  created_at : Int
  body : List Char
  deriving DecidableEq

/-- The `while True` pagination tail from page `page` on (`main.py`
lines 17-31 for pages ≥ 2, 156-168, and the review-comment loop): a non-200
status or an empty page breaks with the items gathered so far; a raised
exception propagates. -/
def collectRest {α : Type} (pages : Nat → Resp (List α)) (page fuel : Nat) :
    Except String (List α) :=
  match fuel with
  | 0 => .ok []
  | fuel + 1 =>
    match pages page with
    | .exn m => .error m
    | .ok status items =>
      if status ≠ 200 then .ok []
      else if items.isEmpty then .ok []
      else
        match collectRest pages (page + 1) fuel with
        | .error m => .error m
        | .ok rest => .ok (items ++ rest)

/-- The full pagination loop of `main.py` lines 15-31 / 116-132: a non-200
status on page 1 makes the whole fetch return `None` (`.ok none`); on a
later page it just stops pagination. -/
def collectPaged {α : Type} (pages : Nat → Resp (List α)) (fuel : Nat) :
    Except String (Option (List α)) :=
  match pages 1 with
  | .exn m => .error m
  | .ok status items =>
    if status ≠ 200 then .ok none
    else if items.isEmpty then .ok (some [])
    else
      match collectRest pages 2 fuel with
      | .error m => .error m
      | .ok rest => .ok (some (items ++ rest))

/-- The `try` body of `fetch_commits_for_pr` (`main.py` lines 13-64):
paginate commits, filter by author login and recency, and emit a record only
when at least one commit qualifies. -/
def commitsBody (pages : Nat → Resp (List RawCommit)) (repo : List Char)
    (pr_number : Nat) (pr : SearchItem) (username : String) (now days : Int)
    (fuel : Nat) : Except String (Option ActivityRecord) :=
  match collectPaged pages fuel with
  | .error m => .error m
  | .ok none => .ok none
  | .ok (some commits) =>
    let user_commits :=
      (commits.filter
        (fun c => c.author_login == some username && withinWindow now days c.date)).map
        (fun c =>
          ({ sha := c.sha.take 7, date := c.date,
             message := firstLine c.message } : CommitEntry))
    if user_commits.isEmpty then .ok none
    else
      .ok (some
        { key := keyOf repo pr_number
          data :=
            { repo := repo
              number := pr_number
              title := pr.title
              url := pr.html_url
              state := deriveStatePr pr.state pr.merged_at
              is_author := true
              is_issue := false
              commits := user_commits
              comments := []
              review_comments := [] } })

/-- `fetch_commits_for_pr` (`main.py` lines 9-68): the `except` clause maps
any raised failure to `None`. -/
def fetch_commits_for_pr (pages : Nat → Resp (List RawCommit)) (repo : List Char)
    (pr_number : Nat) (pr : SearchItem) (username : String) (now days : Int)
    (fuel : Nat) : Option ActivityRecord :=
  match commitsBody pages repo pr_number pr username now days fuel with
  | .ok r => r
  | .error _ => none

/-- The inner review-comments block of `fetch_comments_for_item` (`main.py`
lines 147-181): its own `try` catches any failure, leaving
`user_review_comments` empty. -/
def reviewSection (review_pages : Nat → Resp (List RawComment)) (username : String)
    (now days : Int) (fuel : Nat) : List CommentEntry :=
  match collectRest review_pages 1 fuel with
  | .error _ => []
  | .ok review_comments =>
    (review_comments.filter
      (fun c => c.user_login == username && withinWindow now days c.created_at)).map
      (fun c => ({ date := c.created_at, body := truncBody c.body } : CommentEntry))

/-- The outer `try` body of `fetch_comments_for_item` (`main.py`
lines 114-205). -/
def commentsBody (comment_pages review_pages : Nat → Resp (List RawComment))
    (item : SearchItem) (username : String) (now days : Int)
    (is_issue fetch_reviews : Bool) (fuel : Nat) :
    Except String (Option ActivityRecord) :=
  let repo := repoOf item.repository_url
  match collectPaged comment_pages fuel with
  | .error m => .error m
  | .ok none => .ok none
  | .ok (some comments) =>
    let user_comments :=
      (comments.filter
        (fun c => c.user_login == username && withinWindow now days c.created_at)).map
        (fun c => ({ date := c.created_at, body := truncBody c.body } : CommentEntry))
    let user_review_comments :=
      if !is_issue && fetch_reviews then
        reviewSection review_pages username now days fuel
      else []
    if !user_comments.isEmpty || !user_review_comments.isEmpty then
      .ok (some
        { key := keyOf repo item.number
          data :=
            { repo := repo
              number := item.number
              title := item.title
              url := item.html_url
              state := deriveStateItem item.state is_issue item.merged_at
              is_author := false
              is_issue := is_issue
              commits := []
              comments := user_comments
              review_comments := user_review_comments } })
    else .ok none

/-- `fetch_comments_for_item` (`main.py` lines 108-209): the outer `except`
clause maps any raised failure to `None`. -/
def fetch_comments_for_item (comment_pages review_pages : Nat → Resp (List RawComment))
    (item : SearchItem) (username : String) (now days : Int)
    (is_issue fetch_reviews : Bool) (fuel : Nat) : Option ActivityRecord :=
  match commentsBody comment_pages review_pages item username now days is_issue
      fetch_reviews fuel with
  | .ok r => r
  | .error _ => none

/-- One search walk (`main.py` lines 76-106, identically 216-244, 251-279,
287-315): `for page in range(1, 11)`, requesting each page in turn and
breaking on an exception, a non-200 status, or an empty page. Returns the
list of requested page numbers and the items dispatched to detail fetchers. -/
def walkFrom (pages : Nat → Resp (List SearchItem)) (page fuel : Nat) :
    List Nat × List SearchItem :=
  match fuel with
  | 0 => ([], [])
  | fuel + 1 =>
    match pages page with
    | .exn _ => ([page], [])
    | .ok status items =>
      if status ≠ 200 then ([page], [])
      else if items.isEmpty then ([page], [])
      else
        let rest := walkFrom pages (page + 1) fuel
        (page :: rest.1, items ++ rest.2)

/-- A full search walk: pages 1 through at most 10. -/
def searchWalk (pages : Nat → Resp (List SearchItem)) : List Nat × List SearchItem :=
  walkFrom pages 1 10

/-- A search response that lets the walk continue: HTTP 200 with a non-empty
`items` list. -/
def isGoodPage : Resp (List SearchItem) → Bool
  | .ok status items => status == 200 && !items.isEmpty
  | .exn _ => false

/-- The `items` list carried by a response (empty for an exception). -/
def respItems : Resp (List SearchItem) → List SearchItem
  | .ok _ items => items
  | .exn _ => []

/-- The `rate_limit` JSON payload fields the script reads
(`main.py` lines 430-433). -/
structure RateData where
  core_remaining : Nat
  core_limit : Nat
  search_remaining : Nat
  search_limit : Nat
  deriving DecidableEq

/-- Outcome of the pre-flight phase: `sys.exit(code)` or fall through to the
bulk phase. -/
inductive PreflightOutcome where
  | exit (code : Nat)
  | proceed
  deriving DecidableEq

/-- The pre-flight block of `main` (`main.py` lines 413-448): validate
credentials, then query the quota endpoint. The second component records
whether the quota status lines were printed to stderr (lines 435-438).
An `httpx` error anywhere in the block exits with code 1 (line 446-448). -/
def preflight (auth_resp : Resp Unit) (rate_resp : Resp RateData) :
    PreflightOutcome × Bool :=
  match auth_resp with
  | .exn _ => (.exit 1, false)
  | .ok auth_status _ =>
    if auth_status = 401 then (.exit 1, false)
    else if auth_status ≠ 200 then (.exit 1, false)
    else
      match rate_resp with
      | .exn _ => (.exit 1, false)
      | .ok rate_status rate =>
        if rate_status = 200 then
          if rate.search_remaining < 15 then (.exit 1, true)
          else (.proceed, true)
        else (.proceed, false)

/-- `main` at the process level: when pre-flight exits, no bulk request is
issued; otherwise the bulk phase issues its requests. Result: (exit code,
bulk requests issued, quota status printed). -/
def mainRun (auth_resp : Resp Unit) (rate_resp : Resp RateData)
    (bulk_requests : List String) : Nat × List String × Bool :=
  match preflight auth_resp rate_resp with
  | (.exit c, printed) => (c, [], printed)
  | (.proceed, printed) => (0, bulk_requests, printed)

/-- A `url_to_info` display entry (`main.py` lines 323-329, 344-350). -/
structure DisplayInfo where
  title : String
  state : String
  commits : Nat
  comments : Nat
  review_comments : Nat
  deriving DecidableEq

/-- The entry seeded by an authored record (`main.py` lines 323-329). -/
def authoredInfo (pr : ItemData) : DisplayInfo :=
  { title := pr.title
    state := pr.state
    commits := pr.commits.length
    comments := 0
    review_comments := 0 }

/-- What one commentary record does to the entry currently stored under its
URL (`main.py` lines 338-350): update the existing entry's comment counts in
place, or create a new zero-commit entry. -/
def commentApply (prev : Option DisplayInfo) (item : ItemData) : Option DisplayInfo :=
  match prev with
  | some info =>
    some { info with
           comments := item.comments.length
           review_comments := item.review_comments.length }
  | none =>
    some { title := item.title
           state := item.state
           commits := 0
           comments := item.comments.length
           review_comments := item.review_comments.length }

/-- One step of the authored loop of `generate_report` (`main.py`
lines 322-329): `url_to_info[pr['url']] = {...}` — an overwrite. -/
def insertAuthored (m : String → Option DisplayInfo) (pr : ItemData) :
    String → Option DisplayInfo :=
  fun u => if u = pr.url then some (authoredInfo pr) else m u

/-- One step of the commentary loop of `generate_report` (`main.py`
lines 336-350). -/
def insertCommented (m : String → Option DisplayInfo) (item : ItemData) :
    String → Option DisplayInfo :=
  fun u => if u = item.url then commentApply (m item.url) item else m u

/-- The `url_to_info` index built by `generate_report` from the values of the
two maps (`main.py` lines 320-350). -/
def urlToInfo (pr_activity comment_activity : List ItemData) :
    String → Option DisplayInfo :=
  comment_activity.foldl insertCommented
    (pr_activity.foldl insertAuthored (fun _ => none))

/-- Python `dict` assignment `d[k] = v`: overwrite in place when the key
exists (keeping its insertion position), else append. -/
def pyDictInsert (m : List (List Char × ItemData)) (k : List Char) (v : ItemData) :
    List (List Char × ItemData) :=
  if m.any (fun p => p.1 == k) then
    m.map (fun p => if p.1 == k then (k, v) else p)
  else m ++ [(k, v)]

/-- One step of the partition loop of `main` (`main.py` lines 474-479):
route the record into `pr_result` or `comment_result` by `is_author`. -/
def partitionStep (acc : List (List Char × ItemData) × List (List Char × ItemData))
    (r : ActivityRecord) : List (List Char × ItemData) × List (List Char × ItemData) :=
  if r.data.is_author then (pyDictInsert acc.1 r.key r.data, acc.2)
  else (acc.1, pyDictInsert acc.2 r.key r.data)

/-- The partition of `all_results` into `pr_result` / `comment_result`
(`main.py` lines 472-479), with Python-dict insertion-order semantics. -/
def partitionResults (results : List ActivityRecord) :
    List (List Char × ItemData) × List (List Char × ItemData) :=
  results.foldl partitionStep ([], [])

/-- The end-to-end merge: partition the collected records, take the two
dicts' values in insertion order, and build the `url_to_info` index as
`generate_report` does. -/
def finalDisplay (results : List ActivityRecord) : String → Option DisplayInfo :=
  urlToInfo ((partitionResults results).1.map (fun p => p.2))
    ((partitionResults results).2.map (fun p => p.2))

/-- A concrete search item for instantiating the fetcher theorems. -/
def itemW : SearchItem :=
  { repository_url := "https://api.github.com/repos/o/r".toList
    number := 1
    title := "t1"
    html_url := "https://github.com/o/r/pull/1"
    state := "open"
    merged_at := none }

/-- A concrete authored activity payload: one qualifying commit. -/
def c1AuthoredW : ItemData :=
  { repo := "o/r".toList
    number := 1
    title := "t1"
    url := "https://github.com/o/r/pull/1"
    state := "open"
    is_author := true
    is_issue := false
    commits := [{ sha := "abc1234".toList, date := 0, message := "m1".toList }]
    comments := []
    review_comments := [] }

/-- A concrete commentary activity payload on the same URL: one comment and
one review comment. -/
def c1CommentW : ItemData :=
  { repo := "o/r".toList
    number := 1
    title := "t1"
    url := "https://github.com/o/r/pull/1"
    state := "open"
    is_author := false
    is_issue := false
    commits := []
    comments := [{ date := 0, body := "nice".toList }]
    review_comments := [{ date := 0, body := "inline".toList }] }

/-- A commentary payload with two comments, otherwise like `c1CommentW`. -/
def c2CommentTwoW : ItemData :=
  { c1CommentW with comments := [{ date := 0, body := "a".toList }, { date := 0, body := "b".toList }] }

/-- Two collected records carrying the same key (the situation Python's
dict assignment resolves by overwrite). -/
def c2RecA : ActivityRecord := { key := keyOf "o/r".toList 1, data := c1CommentW }

/-- Companion record of `c2RecA` with the same key but different data. -/
def c2RecB : ActivityRecord := { key := keyOf "o/r".toList 1, data := c2CommentTwoW }

/-- Comment pages for the C8 scenario: one qualifying regular comment. -/
def c8CommentPages : Nat → Resp (List RawComment) :=
  fun p =>
    if p = 1 then .ok 200 [{ user_login := "alice", created_at := 0, body := "hi".toList }]
    else .ok 200 []

/-- Review-comment pages for the C8 scenario: every request raises. -/
def c8ReviewPages : Nat → Resp (List RawComment) :=
  fun _ => .exn "boom"

/-- Concrete page responses used to instantiate the pagination theorem:
pages 1 and 2 carry one item each, page 3 is the first empty page. -/
def c6PagesW : Nat → Resp (List SearchItem) :=
  fun i =>
    if i ≤ 2 then
      .ok 200
        [{ repository_url := "https://api.github.com/repos/o/r".toList
           number := i
           title := "t"
           html_url := "https://github.com/o/r/pull/1"
           state := "open"
           merged_at := none }]
    else .ok 200 []

/-- The walk never requests more pages than it has fuel for. -/
theorem walkFrom_length_le (pages : Nat → Resp (List SearchItem)) :
    ∀ fuel page, (walkFrom pages page fuel).1.length ≤ fuel := by
  intro fuel
  induction fuel with
  | zero => intro page; simp [walkFrom]
  | succ n ih =>
    intro page
    unfold walkFrom
    cases h : pages page with
    | exn m => simp
    | ok status items =>
      dsimp only
      split
      · simp
      · split
        · simp
        · simpa using Nat.succ_le_succ (ih (page + 1))

/-- When pages `start .. start+k-1` are good and page `start+k` is empty,
the walk requests exactly pages `start .. start+k` and gathers the items of
the good pages. -/
theorem walkFrom_empty_stops (pages : Nat → Resp (List SearchItem)) :
    ∀ k fuel start, k < fuel →
      (∀ i, start ≤ i → i < start + k → isGoodPage (pages i) = true) →
      pages (start + k) = .ok 200 [] →
      walkFrom pages start fuel =
        (List.range' start (k + 1),
          ((List.range' start k).map (fun i => respItems (pages i))).flatten) := by
  intro k
  induction k with
  | zero =>
    intro fuel start hk hgood hempty
    cases fuel with
    | zero => omega
    | succ f =>
      unfold walkFrom
      rw [Nat.add_zero] at hempty
      rw [hempty]
      simp [List.range'_succ]
  | succ k ih =>
    intro fuel start hk hgood hempty
    cases fuel with
    | zero => omega
    | succ f =>
      have hgs : isGoodPage (pages start) = true := hgood start (Nat.le_refl _) (by omega)
      unfold walkFrom
      cases hps : pages start with
      | exn m => rw [hps] at hgs; simp [isGoodPage] at hgs
      | ok status items =>
        rw [hps] at hgs
        simp only [isGoodPage, Bool.and_eq_true, beq_iff_eq, Bool.not_eq_true'] at hgs
        obtain ⟨h200, hne⟩ := hgs
        subst h200
        dsimp only
        rw [if_neg (by simp), if_neg (by simp [hne])]
        have hrest := ih f (start + 1) (by omega)
          (fun i h1 h2 => hgood i (by omega) (by omega))
          (by rw [show start + 1 + k = start + (k + 1) by omega]; exact hempty)
        rw [hrest]
        simp [List.range'_succ, hps, respItems]

/-- When all of pages `start .. start+fuel-1` are good, the walk requests
exactly those `fuel` pages. -/
theorem walkFrom_all_good (pages : Nat → Resp (List SearchItem)) :
    ∀ fuel start,
      (∀ i, start ≤ i → i < start + fuel → isGoodPage (pages i) = true) →
      (walkFrom pages start fuel).1 = List.range' start fuel := by
  intro fuel
  induction fuel with
  | zero => intro start h; simp [walkFrom]
  | succ f ih =>
    intro start hgood
    have hgs : isGoodPage (pages start) = true := hgood start (Nat.le_refl _) (by omega)
    unfold walkFrom
    cases hps : pages start with
    | exn m => rw [hps] at hgs; simp [isGoodPage] at hgs
    | ok status items =>
      rw [hps] at hgs
      simp only [isGoodPage, Bool.and_eq_true, beq_iff_eq, Bool.not_eq_true'] at hgs
      obtain ⟨h200, hne⟩ := hgs
      subst h200
      dsimp only
      rw [if_neg (by simp), if_neg (by simp [hne])]
      simp [List.range'_succ,
        ih (start + 1) (fun i h1 h2 => hgood i (by omega) (by omega))]

/-- C6: a search walk makes at most 10 page requests; when the first empty
page sits at position `N ≤ 10` the walk requests exactly pages `1 .. N`
(nothing past `N`) and only pages `1 .. N-1` contribute items; and when all
of pages `1 .. 10` are non-empty the walk stops after page 10. -/
theorem c6_pagination_termination (pages : Nat → Resp (List SearchItem)) (N : Nat) :
    (searchWalk pages).1.length ≤ 10 ∧
    (1 ≤ N → N ≤ 10 →
      (∀ i, 1 ≤ i → i < N → isGoodPage (pages i) = true) →
      pages N = .ok 200 [] →
      (searchWalk pages).1 = List.range' 1 N ∧
      (∀ p ∈ (searchWalk pages).1, p ≤ N) ∧
      (searchWalk pages).2 =
        ((List.range' 1 (N - 1)).map (fun i => respItems (pages i))).flatten) ∧
    ((∀ i, 1 ≤ i → i ≤ 10 → isGoodPage (pages i) = true) →
      (searchWalk pages).1 = List.range' 1 10) := by
  refine ⟨walkFrom_length_le pages 10 1, ?_, ?_⟩
  · intro h1 h10 hgood hempty
    have hstop := walkFrom_empty_stops pages (N - 1) 10 1 (by omega)
      (fun i hi1 hi2 => hgood i hi1 (by omega))
      (by rw [show 1 + (N - 1) = N by omega]; exact hempty)
    have hN : N - 1 + 1 = N := by omega
    refine ⟨?_, ?_, ?_⟩
    · rw [searchWalk, hstop, hN]
    · intro p hp
      rw [searchWalk, hstop, hN] at hp
      simp only [List.mem_range'_1] at hp
      omega
    · rw [searchWalk, hstop]
  · intro hgood
    rw [searchWalk]
    exact walkFrom_all_good pages 10 1 (fun i hi1 hi2 => hgood i hi1 (by omega))

/-- Witness for `c6_pagination_termination`: with the first empty page at
position 3, the walk requests exactly pages 1, 2, 3. -/
theorem c6_pagination_termination_witness :
    (1 ≤ 3 ∧ 3 ≤ 10 ∧ (∀ i, 1 ≤ i → i < 3 → isGoodPage (c6PagesW i) = true) ∧
      c6PagesW 3 = .ok 200 []) ∧
    (searchWalk c6PagesW).1 = List.range' 1 3 := by
  have hgood : ∀ i, 1 ≤ i → i < 3 → isGoodPage (c6PagesW i) = true := by
    intro i hi1 hi2
    interval_cases i <;> decide
  exact ⟨⟨by decide, by decide, hgood, by decide⟩,
    ((c6_pagination_termination c6PagesW 3).2.1 (by decide) (by decide) hgood
      (by decide)).1⟩

/-- C3: a closed pull request with a non-null (hence nonempty) merge
timestamp derives state `merged`; closed without one derives `closed`; a
non-closed item keeps state `open`; and an issue record (`is_issue = true`)
is never assigned `merged`. -/
theorem c3_state_derivation (t : String) (ht : t ≠ "") (m : Option String)
    (b : Bool) (s : String) (hs : s = "open" ∨ s = "closed") :
    deriveStatePr "closed" (some t) = "merged" ∧
    deriveStateItem "closed" false (some t) = "merged" ∧
    deriveStatePr "closed" none = "closed" ∧
    deriveStateItem "closed" b none = "closed" ∧
    deriveStatePr "open" m = "open" ∧
    deriveStateItem "open" b m = "open" ∧
    deriveStateItem s true m ≠ "merged" := by
  have hemp : t.isEmpty = false := by
    cases h2 : t.isEmpty
    · rfl
    · exact absurd ((String.isEmpty_iff t).mp h2) ht
  refine ⟨?_, ?_, ?_, ?_, ?_, ?_, ?_⟩
  · simp [deriveStatePr, pyTruthy, hemp]
  · simp [deriveStateItem, pyTruthy, hemp]
  · simp [deriveStatePr, pyTruthy]
  · simp [deriveStateItem, pyTruthy]
  · simp [deriveStatePr, pyTruthy]
  · simp [deriveStateItem, pyTruthy]
  · simp only [deriveStateItem, Bool.not_true, Bool.false_and, if_neg Bool.false_ne_true]
    rcases hs with h | h <;> subst h <;> decide

/-- Witness for `c3_state_derivation` at a concrete timestamp and state. -/
theorem c3_state_derivation_witness :
    ("2024-01-01T00:00:00Z" : String) ≠ "" ∧
    (("open" : String) = "open" ∨ ("open" : String) = "closed") ∧
    deriveStatePr "closed" (some "2024-01-01T00:00:00Z") = "merged" := by
  refine ⟨by decide, Or.inl rfl, ?_⟩
  exact (c3_state_derivation "2024-01-01T00:00:00Z" (by decide) none false "open"
    (Or.inl rfl)).1

/-- C4: the recency filter is inclusive at the lower boundary: a date exactly
at `now - 7 days` passes, one second earlier fails, and in general the
comparison is `now - 7 * 86400 ≤ date`. -/
theorem c4_recency_boundary (now : Int) :
    withinWindow now 7 (now - 7 * 86400) = true ∧
    withinWindow now 7 (now - 7 * 86400 - 1) = false ∧
    ∀ d : Int, withinWindow now 7 d = true ↔ now - 7 * 86400 ≤ d := by
  refine ⟨?_, ?_, fun d => ?_⟩ <;> simp [withinWindow]

/-- C5: a body of at most 100 characters is stored unchanged (no ellipsis);
one of 101 or more characters is truncated to its first 100 characters
followed by `...`. -/
theorem c5_truncation (body : List Char) :
    (body.length ≤ 100 → truncBody body = body) ∧
    (101 ≤ body.length → truncBody body = body.take 100 ++ "...".toList) := by
  constructor
  · intro h
    unfold truncBody
    rw [if_neg (by omega), List.take_of_length_le h, List.append_nil]
  · intro h
    unfold truncBody
    rw [if_pos (by omega)]

/-- Witness for `c5_truncation` at bodies of length exactly 100 and 101. -/
theorem c5_truncation_witness :
    (List.replicate 100 'a').length ≤ 100 ∧
    101 ≤ (List.replicate 101 'a').length ∧
    truncBody (List.replicate 100 'a') = List.replicate 100 'a' ∧
    truncBody (List.replicate 101 'a') =
      (List.replicate 101 'a').take 100 ++ "...".toList :=
  ⟨by decide, by decide,
    (c5_truncation (List.replicate 100 'a')).1 (by decide),
    (c5_truncation (List.replicate 101 'a')).2 (by decide)⟩

/-- C9: when the quota endpoint answers 200 with fewer than 15 remaining
search requests, the process exits with code 1 and issues none of the bulk
search/detail requests. -/
theorem c9_quota_abort (rate : RateData) (reqs : List String)
    (h : rate.search_remaining < 15) :
    mainRun (.ok 200 ()) (.ok 200 rate) reqs = (1, [], true) := by
  simp [mainRun, preflight, h]

/-- Witness for `c9_quota_abort`: 14 remaining search requests abort the run
before any bulk request. -/
theorem c9_quota_abort_witness :
    (⟨4990, 5000, 14, 30⟩ : RateData).search_remaining < 15 ∧
    mainRun (.ok 200 ()) (.ok 200 ⟨4990, 5000, 14, 30⟩) ["search-1"] =
      (1, [], true) :=
  ⟨by decide, c9_quota_abort ⟨4990, 5000, 14, 30⟩ ["search-1"] (by decide)⟩

/-- C10: when the quota endpoint returns a non-success status, the quota
check is silently skipped: the run proceeds to the bulk phase (whatever the
remaining search quota, even 0) and prints no quota status. -/
theorem c10_quota_skip (s : Nat) (hs : s ≠ 200) (rate : RateData)
    (reqs : List String) :
    mainRun (.ok 200 ()) (.ok s rate) reqs = (0, reqs, false) := by
  simp [mainRun, preflight, hs]

/-- Witness for `c10_quota_skip`: a 500 from the quota endpoint with zero
remaining search quota still proceeds to the bulk phase. -/
theorem c10_quota_skip_witness :
    (500 : Nat) ≠ 200 ∧
    mainRun (.ok 200 ()) (.ok 500 ⟨0, 5000, 0, 30⟩) ["search-1", "search-2"] =
      (0, ["search-1", "search-2"], false) :=
  ⟨by decide, c10_quota_skip 500 (by decide) ⟨0, 5000, 0, 30⟩ ["search-1", "search-2"]⟩

/-- A successfully emitted commit-variant record has a non-empty commit
list: the guard `if user_commits:` of `main.py` line 45. -/
theorem commitsBody_ok_some (pages : Nat → Resp (List RawCommit)) (repo : List Char)
    (pr_number : Nat) (pr : SearchItem) (username : String) (now days : Int)
    (fuel : Nat) (r : ActivityRecord)
    (h : commitsBody pages repo pr_number pr username now days fuel = .ok (some r)) :
    r.data.commits ≠ [] := by
  unfold commitsBody at h
  split at h
  · exact absurd h (by simp)
  · exact absurd h (by simp)
  · dsimp only at h
    split at h
    · exact absurd h (by simp)
    · rename_i hne
      simp only [Except.ok.injEq, Option.some.injEq] at h
      subst h
      simpa using hne

/-- A successfully emitted comment-variant record has a non-empty comment or
review-comment list: the guard of `main.py` line 183. -/
theorem commentsBody_ok_some (comment_pages review_pages : Nat → Resp (List RawComment))
    (item : SearchItem) (username : String) (now days : Int)
    (is_issue fetch_reviews : Bool) (fuel : Nat) (r : ActivityRecord)
    (h : commentsBody comment_pages review_pages item username now days is_issue
        fetch_reviews fuel = .ok (some r)) :
    r.data.comments ≠ [] ∨ r.data.review_comments ≠ [] := by
  unfold commentsBody at h
  split at h
  · exact absurd h (by simp)
  · exact absurd h (by simp)
  · dsimp only at h
    split at h <;> split at h
    · rename_i hne
      simp only [Except.ok.injEq, Option.some.injEq] at h
      subst h
      simp only [Bool.or_eq_true, Bool.not_eq_true'] at hne
      rcases hne with hne | hne
      · left
        simpa using hne
      · right
        simpa using hne
    · exact absurd h (by simp)
    · rename_i hne
      simp only [Except.ok.injEq, Option.some.injEq] at h
      subst h
      simp only [Bool.or_eq_true, Bool.not_eq_true'] at hne
      rcases hne with hne | hne
      · left
        simpa using hne
      · right
        simp at hne
    · exact absurd h (by simp)

/-- C7: no empty-activity record is ever emitted: every record produced by
the commit-variant fetcher has at least one qualifying commit, and every
record produced by the comment-variant fetcher has at least one qualifying
comment or review comment. -/
theorem c7_no_empty_records :
    (∀ (pages : Nat → Resp (List RawCommit)) (repo : List Char) (pr_number : Nat)
        (pr : SearchItem) (username : String) (now days : Int) (fuel : Nat),
      (fetch_commits_for_pr pages repo pr_number pr username now days fuel).all
        (fun r => !r.data.commits.isEmpty) = true) ∧
    (∀ (comment_pages review_pages : Nat → Resp (List RawComment)) (item : SearchItem)
        (username : String) (now days : Int) (is_issue fetch_reviews : Bool) (fuel : Nat),
      (fetch_comments_for_item comment_pages review_pages item username now days
          is_issue fetch_reviews fuel).all
        (fun r => !r.data.comments.isEmpty || !r.data.review_comments.isEmpty) = true) := by
  constructor
  · intro pages repo pr_number pr username now days fuel
    unfold fetch_commits_for_pr
    cases hB : commitsBody pages repo pr_number pr username now days fuel with
    | error m => rfl
    | ok v =>
      cases v with
      | none => rfl
      | some r =>
        have := commitsBody_ok_some pages repo pr_number pr username now days fuel r hB
        simpa [Option.all] using this
  · intro comment_pages review_pages item username now days is_issue fetch_reviews fuel
    unfold fetch_comments_for_item
    cases hB : commentsBody comment_pages review_pages item username now days is_issue
        fetch_reviews fuel with
    | error m => rfl
    | ok v =>
      cases v with
      | none => rfl
      | some r =>
        have := commentsBody_ok_some comment_pages review_pages item username now days
          is_issue fetch_reviews fuel r hB
        rcases this with h | h <;> simp [Option.all, h]

/-- C8 (amended): a failure raised in the primary fetch (commit pagination
or regular-comment pagination) is caught by the task, which returns no
record; a failure raised in the secondary review-comments fetch is caught by
the inner handler, which leaves the review-comment list empty while the task
itself may still emit a record. -/
theorem c8_failures_caught :
    (∀ (pages : Nat → Resp (List RawCommit)) (repo : List Char) (pr_number : Nat)
        (pr : SearchItem) (username : String) (now days : Int) (fuel : Nat) (m : String),
      commitsBody pages repo pr_number pr username now days fuel = .error m →
      fetch_commits_for_pr pages repo pr_number pr username now days fuel = none) ∧
    (∀ (comment_pages review_pages : Nat → Resp (List RawComment)) (item : SearchItem)
        (username : String) (now days : Int) (is_issue fetch_reviews : Bool) (fuel : Nat)
        (m : String),
      commentsBody comment_pages review_pages item username now days is_issue
          fetch_reviews fuel = .error m →
      fetch_comments_for_item comment_pages review_pages item username now days
          is_issue fetch_reviews fuel = none) ∧
    (∀ (review_pages : Nat → Resp (List RawComment)) (username : String)
        (now days : Int) (fuel : Nat) (m : String),
      collectRest review_pages 1 fuel = .error m →
      reviewSection review_pages username now days fuel = []) := by
  refine ⟨?_, ?_, ?_⟩
  · intro pages repo pr_number pr username now days fuel m h
    unfold fetch_commits_for_pr
    rw [h]
  · intro comment_pages review_pages item username now days is_issue fetch_reviews fuel m h
    unfold fetch_comments_for_item
    rw [h]
  · intro review_pages username now days fuel m h
    unfold reviewSection
    rw [h]

/-- Witness for `c8_failures_caught`: concrete failing transports. -/
theorem c8_failures_caught_witness :
    commitsBody (fun _ => .exn "down") ("o/r".toList) 1 itemW "alice" 0 7 3 =
      .error "down" ∧
    fetch_commits_for_pr (fun _ => .exn "down") ("o/r".toList) 1 itemW "alice" 0 7 3 =
      none ∧
    commentsBody (fun _ => .exn "down") (fun _ => .ok 200 []) itemW "alice" 0 7
      false true 3 = .error "down" ∧
    fetch_comments_for_item (fun _ => .exn "down") (fun _ => .ok 200 []) itemW
      "alice" 0 7 false true 3 = none ∧
    collectRest c8ReviewPages 1 3 = .error "boom" ∧
    reviewSection c8ReviewPages "alice" 0 7 3 = [] :=
  ⟨by rfl,
    c8_failures_caught.1 (fun _ => .exn "down") ("o/r".toList) 1 itemW "alice" 0 7 3
      "down" (by rfl),
    by rfl,
    c8_failures_caught.2.1 (fun _ => .exn "down") (fun _ => .ok 200 []) itemW "alice"
      0 7 false true 3 "down" (by rfl),
    by rfl,
    c8_failures_caught.2.2 c8ReviewPages "alice" 0 7 3 "boom" (by rfl)⟩

/-- Counterexample to C8 as stated: a transport failure raised while
fetching review comments (the review endpoint raises on every request) is
caught and logged, yet the task still returns a record — not `None` — because
a qualifying regular comment exists. -/
theorem c8_counterexample :
    c8ReviewPages 1 = .exn "boom" ∧
    fetch_comments_for_item c8CommentPages c8ReviewPages itemW "alice" 0 7
      false true 3 ≠ none :=
  ⟨rfl, by decide⟩

/-- When no authored record carries URL `u`, the authored loop leaves the
entry at `u` untouched. -/
theorem foldl_insertAuthored_no_match (prs : List ItemData) :
    ∀ (m : String → Option DisplayInfo) (u : String),
      (∀ q ∈ prs, q.url ≠ u) →
      prs.foldl insertAuthored m u = m u := by
  induction prs with
  | nil => intro m u _; rfl
  | cons a t ih =>
    intro m u h
    rw [List.foldl_cons,
      ih (insertAuthored m a) u (fun q hq => h q (List.mem_cons_of_mem a hq))]
    simp only [insertAuthored]
    rw [if_neg (Ne.symm (h a (List.mem_cons_self a t)))]

/-- When (up to duplicates) exactly one authored record `p` carries URL `u`,
the authored loop stores `p`'s seed entry at `u`. -/
theorem foldl_insertAuthored_unique (prs : List ItemData) :
    ∀ (m : String → Option DisplayInfo) (u : String) (p : ItemData),
      p.url = u → p ∈ prs → (∀ q ∈ prs, q.url = u → q = p) →
      prs.foldl insertAuthored m u = some (authoredInfo p) := by
  induction prs with
  | nil => intro m u p _ hmem _; cases hmem
  | cons a t ih =>
    intro m u p hpu hmem huniq
    rw [List.foldl_cons]
    by_cases hat : ∃ q ∈ t, q.url = u
    · obtain ⟨q, hqt, hqu⟩ := hat
      have hq : q = p := huniq q (List.mem_cons_of_mem a hqt) hqu
      have hpt : p ∈ t := hq ▸ hqt
      exact ih (insertAuthored m a) u p hpu hpt
        (fun q' hq' hq'u => huniq q' (List.mem_cons_of_mem a hq') hq'u)
    · push_neg at hat
      rw [foldl_insertAuthored_no_match t (insertAuthored m a) u hat]
      have hpa : p = a := by
        rcases List.mem_cons.mp hmem with h | h
        · exact h
        · exact absurd hpu (hat p h)
      subst hpa
      simp only [insertAuthored]
      rw [if_pos hpu.symm]

/-- When no commentary record carries URL `u`, the commentary loop leaves
the entry at `u` untouched. -/
theorem foldl_insertCommented_no_match (items : List ItemData) :
    ∀ (m : String → Option DisplayInfo) (u : String),
      (∀ q ∈ items, q.url ≠ u) →
      items.foldl insertCommented m u = m u := by
  induction items with
  | nil => intro m u _; rfl
  | cons a t ih =>
    intro m u h
    rw [List.foldl_cons,
      ih (insertCommented m a) u (fun q hq => h q (List.mem_cons_of_mem a hq))]
    simp only [insertCommented]
    rw [if_neg (Ne.symm (h a (List.mem_cons_self a t)))]

/-- Re-applying the same commentary record is idempotent. -/
theorem commentApply_idem (prev : Option DisplayInfo) (c : ItemData) :
    commentApply (commentApply prev c) c = commentApply prev c := by
  cases prev <;> rfl

/-- When (up to duplicates) exactly one commentary record `c` carries URL
`u`, the commentary loop applies `c`'s update to the entry at `u`. -/
theorem foldl_insertCommented_unique (items : List ItemData) :
    ∀ (m : String → Option DisplayInfo) (u : String) (c : ItemData),
      c.url = u → c ∈ items → (∀ q ∈ items, q.url = u → q = c) →
      items.foldl insertCommented m u = commentApply (m u) c := by
  induction items with
  | nil => intro m u c _ hmem _; cases hmem
  | cons a t ih =>
    intro m u c hcu hmem huniq
    rw [List.foldl_cons]
    by_cases hau : a.url = u
    · have hac : a = c := huniq a (List.mem_cons_self a t) hau
      subst hac
      by_cases hat : ∃ q ∈ t, q.url = u
      · obtain ⟨q, hqt, hqu⟩ := hat
        have hq : q = a := huniq q (List.mem_cons_of_mem a hqt) hqu
        subst hq
        rw [ih (insertCommented m q) u q hau hqt
          (fun q' h1 h2 => huniq q' (List.mem_cons_of_mem q h1) h2)]
        simp only [insertCommented]
        rw [if_pos hau.symm, hau]
        exact commentApply_idem (m u) q
      · push_neg at hat
        rw [foldl_insertCommented_no_match t (insertCommented m a) u hat]
        simp only [insertCommented]
        rw [if_pos hau.symm, hau]
    · have hct : c ∈ t := by
        rcases List.mem_cons.mp hmem with h | h
        · exact absurd (h ▸ hcu) hau
        · exact h
      rw [ih (insertCommented m a) u c hcu hct
        (fun q h1 h2 => huniq q (List.mem_cons_of_mem a h1) h2)]
      simp only [insertCommented]
      rw [if_neg (fun h => hau h.symm)]

/-- C1: when one authored record and one commentary record share a URL, the
final display entry for that URL keeps the authored record's commit count
and takes the comment and review-comment counts from the commentary record,
showing nonzero commits and nonzero comments; the commit count is never
replaced or zeroed. -/
theorem c1_merge_augments (prs items : List ItemData) (p c : ItemData) (u : String)
    (hpu : p.url = u) (hpm : p ∈ prs) (hpuniq : ∀ q ∈ prs, q.url = u → q = p)
    (hcu : c.url = u) (hcm : c ∈ items) (hcuniq : ∀ q ∈ items, q.url = u → q = c)
    (hpc : p.commits ≠ []) (hcc : c.comments ≠ []) :
    urlToInfo prs items u =
      some { title := p.title
             state := p.state
             commits := p.commits.length
             comments := c.comments.length
             review_comments := c.review_comments.length } ∧
    0 < p.commits.length ∧ 0 < c.comments.length := by
  refine ⟨?_, List.length_pos.mpr hpc, List.length_pos.mpr hcc⟩
  unfold urlToInfo
  rw [foldl_insertCommented_unique items _ u c hcu hcm hcuniq,
    foldl_insertAuthored_unique prs _ u p hpu hpm hpuniq]
  rfl

/-- Witness for `c1_merge_augments`: one authored record with one commit and
one commentary record with one comment and one review comment on the same
URL merge into a display entry showing all three counts. -/
theorem c1_merge_augments_witness :
    c1AuthoredW.commits ≠ [] ∧ c1CommentW.comments ≠ [] ∧
    urlToInfo [c1AuthoredW] [c1CommentW] "https://github.com/o/r/pull/1" =
      some { title := "t1"
             state := "open"
             commits := 1
             comments := 1
             review_comments := 1 } :=
  ⟨by decide, by decide,
    (c1_merge_augments [c1AuthoredW] [c1CommentW] c1AuthoredW c1CommentW
      "https://github.com/o/r/pull/1" (by decide) (by decide) (by decide)
      (by decide) (by decide) (by decide) (by decide) (by decide)).1⟩

/-- Inserting a key that is not yet present appends it. -/
theorem pyDictInsert_fresh (m : List (List Char × ItemData)) (k : List Char)
    (v : ItemData) (h : ∀ p ∈ m, p.1 ≠ k) :
    pyDictInsert m k v = m ++ [(k, v)] := by
  have hany : m.any (fun p => p.1 == k) = false := by
    rw [List.any_eq_false]
    intro p hp
    simp only [beq_iff_eq]
    exact h p hp
  simp [pyDictInsert, hany]

/-- With pairwise-distinct keys inside each `is_author` class, the partition
fold appends each record to its class dict in encounter order. -/
theorem partitionFold_distinct (results : List ActivityRecord) :
    ∀ (m1 m2 : List (List Char × ItemData)),
      (results.filter (fun r => r.data.is_author)).Pairwise
        (fun a b => a.key ≠ b.key) →
      (results.filter (fun r => !r.data.is_author)).Pairwise
        (fun a b => a.key ≠ b.key) →
      (∀ r ∈ results, r.data.is_author = true → ∀ p ∈ m1, p.1 ≠ r.key) →
      (∀ r ∈ results, r.data.is_author = false → ∀ p ∈ m2, p.1 ≠ r.key) →
      results.foldl partitionStep (m1, m2) =
        (m1 ++ (results.filter (fun r => r.data.is_author)).map
          (fun r => (r.key, r.data)),
         m2 ++ (results.filter (fun r => !r.data.is_author)).map
          (fun r => (r.key, r.data))) := by
  induction results with
  | nil => intro m1 m2 _ _ _ _; simp
  | cons r t ih =>
    intro m1 m2 hpa hpc h1 h2
    rw [List.foldl_cons]
    cases hia : r.data.is_author with
    | true =>
      rw [show partitionStep (m1, m2) r = (pyDictInsert m1 r.key r.data, m2) from
        by simp [partitionStep, hia]]
      rw [pyDictInsert_fresh m1 r.key r.data (h1 r (List.mem_cons_self r t) hia)]
      simp only [List.filter_cons] at hpa hpc ⊢
      simp only [hia, Bool.not_true, if_true, if_false, ite_true, ite_false] at hpa hpc ⊢
      obtain ⟨hrk, hpa'⟩ := List.pairwise_cons.mp hpa
      rw [ih (m1 ++ [(r.key, r.data)]) m2 hpa' hpc ?hm1 ?hm2]
      · simp
      case hm1 =>
        intro r' hr' hia' p hp
        rcases List.mem_append.mp hp with hpm | hpm
        · exact h1 r' (List.mem_cons_of_mem r hr') hia' p hpm
        · have hpp : p = (r.key, r.data) := by simpa using hpm
          rw [hpp]
          exact hrk r' (List.mem_filter.mpr ⟨hr', by rw [hia']⟩)
      case hm2 =>
        intro r' hr' hia' p hp
        exact h2 r' (List.mem_cons_of_mem r hr') hia' p hp
    | false =>
      rw [show partitionStep (m1, m2) r = (m1, pyDictInsert m2 r.key r.data) from
        by simp [partitionStep, hia]]
      rw [pyDictInsert_fresh m2 r.key r.data (h2 r (List.mem_cons_self r t) hia)]
      simp only [List.filter_cons] at hpa hpc ⊢
      simp only [hia, Bool.not_false, if_true, if_false, ite_true, ite_false] at hpa hpc ⊢
      obtain ⟨hrk, hpc'⟩ := List.pairwise_cons.mp hpc
      rw [ih m1 (m2 ++ [(r.key, r.data)]) hpa hpc' ?hm1 ?hm2]
      · simp
      case hm1 =>
        intro r' hr' hia' p hp
        exact h1 r' (List.mem_cons_of_mem r hr') hia' p hp
      case hm2 =>
        intro r' hr' hia' p hp
        rcases List.mem_append.mp hp with hpm | hpm
        · exact h2 r' (List.mem_cons_of_mem r hr') hia' p hpm
        · have hpp : p = (r.key, r.data) := by simpa using hpm
          rw [hpp]
          exact hrk r' (List.mem_filter.mpr ⟨hr', by simp [hia']⟩)

/-- With pairwise-distinct keys inside each class, `partitionResults` gives
exactly the filtered sublists, in encounter order, as key-value pairs. -/
theorem partitionResults_distinct (results : List ActivityRecord)
    (hpa : (results.filter (fun r => r.data.is_author)).Pairwise
      (fun a b => a.key ≠ b.key))
    (hpc : (results.filter (fun r => !r.data.is_author)).Pairwise
      (fun a b => a.key ≠ b.key)) :
    partitionResults results =
      ((results.filter (fun r => r.data.is_author)).map (fun r => (r.key, r.data)),
       (results.filter (fun r => !r.data.is_author)).map (fun r => (r.key, r.data))) := by
  have h := partitionFold_distinct results [] [] hpa hpc
    (by intro r _ _ p hp; cases hp) (by intro r _ _ p hp; cases hp)
  simpa [partitionResults] using h

/-- Under pairwise-distinct URLs, a URL is carried by no record or by
essentially one record. -/
theorem filter_url_cases (l : List ItemData) (u : String)
    (h : l.Pairwise (fun a b => a.url ≠ b.url)) :
    (∀ q ∈ l, q.url ≠ u) ∨
    (∃ c, c ∈ l ∧ c.url = u ∧ ∀ q ∈ l, q.url = u → q = c) := by
  induction l with
  | nil => exact Or.inl (fun q hq => absurd hq (List.not_mem_nil q))
  | cons a t ih =>
    obtain ⟨ha, ht⟩ := List.pairwise_cons.mp h
    by_cases hau : a.url = u
    · right
      refine ⟨a, List.mem_cons_self a t, hau, ?_⟩
      intro q hq hqu
      rcases List.mem_cons.mp hq with h' | h'
      · exact h'
      · exact absurd (hqu.trans hau.symm) (Ne.symm (ha q h'))
    · rcases ih ht with hnone | ⟨c, hc1, hc2, hc3⟩
      · left
        intro q hq
        rcases List.mem_cons.mp hq with h' | h'
        · rw [h']; exact hau
        · exact hnone q h'
      · right
        refine ⟨c, List.mem_cons_of_mem a hc1, hc2, ?_⟩
        intro q hq hqu
        rcases List.mem_cons.mp hq with h' | h'
        · exact absurd (h' ▸ hqu) hau
        · exact hc3 q h' hqu

/-- With pairwise-distinct URLs in each input list, the `url_to_info` value
at any URL is invariant under permuting either input list. -/
theorem urlToInfo_perm (A A' C C' : List ItemData) (u : String)
    (hA : A.Perm A') (hC : C.Perm C')
    (hAp : A.Pairwise (fun a b => a.url ≠ b.url))
    (hCp : C.Pairwise (fun a b => a.url ≠ b.url)) :
    urlToInfo A C u = urlToInfo A' C' u := by
  have hinner : A.foldl insertAuthored (fun _ => none) u =
      A'.foldl insertAuthored (fun _ => none) u := by
    rcases filter_url_cases A u hAp with hnone | ⟨p, hp1, hp2, hp3⟩
    · have hnone' : ∀ q ∈ A', q.url ≠ u := fun q hq => hnone q (hA.mem_iff.mpr hq)
      rw [foldl_insertAuthored_no_match A _ u hnone,
        foldl_insertAuthored_no_match A' _ u hnone']
    · have hp1' : p ∈ A' := hA.mem_iff.mp hp1
      have hp3' : ∀ q ∈ A', q.url = u → q = p :=
        fun q hq => hp3 q (hA.mem_iff.mpr hq)
      rw [foldl_insertAuthored_unique A _ u p hp2 hp1 hp3,
        foldl_insertAuthored_unique A' _ u p hp2 hp1' hp3']
  rcases filter_url_cases C u hCp with hnone | ⟨c, hc1, hc2, hc3⟩
  · have hnone' : ∀ q ∈ C', q.url ≠ u := fun q hq => hnone q (hC.mem_iff.mpr hq)
    unfold urlToInfo
    rw [foldl_insertCommented_no_match C _ u hnone,
      foldl_insertCommented_no_match C' _ u hnone']
    exact hinner
  · have hc1' : c ∈ C' := hC.mem_iff.mp hc1
    have hc3' : ∀ q ∈ C', q.url = u → q = c :=
      fun q hq => hc3 q (hC.mem_iff.mpr hq)
    unfold urlToInfo
    rw [foldl_insertCommented_unique C _ u c hc2 hc1 hc3,
      foldl_insertCommented_unique C' _ u c hc2 hc1' hc3', hinner]

/-- C2 (amended): the end-to-end merge is order-independent provided no two
records inside the same `is_author` class share a key and no two records
inside the same class share a URL; when two records do share a key within a
class, the later one overwrites (see the counterexample). -/
theorem c2_merge_order_independent (results results' : List ActivityRecord)
    (hperm : results.Perm results')
    (hkeysA : (results.filter (fun r => r.data.is_author)).Pairwise
      (fun a b => a.key ≠ b.key))
    (hkeysC : (results.filter (fun r => !r.data.is_author)).Pairwise
      (fun a b => a.key ≠ b.key))
    (hurlA : (results.filter (fun r => r.data.is_author)).Pairwise
      (fun a b => a.data.url ≠ b.data.url))
    (hurlC : (results.filter (fun r => !r.data.is_author)).Pairwise
      (fun a b => a.data.url ≠ b.data.url))
    (u : String) :
    finalDisplay results u = finalDisplay results' u := by
  have hpermA := hperm.filter (fun r => r.data.is_author)
  have hpermC := hperm.filter (fun r => !r.data.is_author)
  have hkeysA' := (List.Perm.pairwise_iff (fun h => Ne.symm h) hpermA).mp hkeysA
  have hkeysC' := (List.Perm.pairwise_iff (fun h => Ne.symm h) hpermC).mp hkeysC
  have hurlA' := (List.Perm.pairwise_iff (fun h => Ne.symm h) hpermA).mp hurlA
  have hurlC' := (List.Perm.pairwise_iff (fun h => Ne.symm h) hpermC).mp hurlC
  unfold finalDisplay
  rw [partitionResults_distinct results hkeysA hkeysC,
    partitionResults_distinct results' hkeysA' hkeysC']
  simp only [List.map_map]
  exact urlToInfo_perm _ _ _ _ u (hpermA.map _) (hpermC.map _)
    (List.pairwise_map.mpr hurlA) (List.pairwise_map.mpr hurlC)

/-- Witness for `c2_merge_order_independent`: an authored and a commentary
record sharing one key merge to the same display entry in either order. -/
theorem c2_merge_order_independent_witness :
    ([⟨keyOf ("o/r".toList) 1, c1AuthoredW⟩, ⟨keyOf ("o/r".toList) 1, c1CommentW⟩] :
      List ActivityRecord).Perm
      [⟨keyOf ("o/r".toList) 1, c1CommentW⟩, ⟨keyOf ("o/r".toList) 1, c1AuthoredW⟩] ∧
    finalDisplay
      [⟨keyOf ("o/r".toList) 1, c1AuthoredW⟩, ⟨keyOf ("o/r".toList) 1, c1CommentW⟩]
      "https://github.com/o/r/pull/1" =
    finalDisplay
      [⟨keyOf ("o/r".toList) 1, c1CommentW⟩, ⟨keyOf ("o/r".toList) 1, c1AuthoredW⟩]
      "https://github.com/o/r/pull/1" :=
  ⟨List.Perm.swap _ _ _,
    c2_merge_order_independent _ _ (List.Perm.swap _ _ _)
      (by decide) (by decide) (by decide) (by decide)
      "https://github.com/o/r/pull/1"⟩

/-- Counterexample to C2 as stated: two collected commentary records with
the same key but different comment counts; swapping their order changes the
final display entry (Python dict assignment overwrites, the later record
wins), so the merge is not order-independent when two records share a key. -/
theorem c2_counterexample :
    c2RecA.key = c2RecB.key ∧
    ([c2RecA, c2RecB] : List ActivityRecord).Perm [c2RecB, c2RecA] ∧
    finalDisplay [c2RecA, c2RecB] "https://github.com/o/r/pull/1" ≠
      finalDisplay [c2RecB, c2RecA] "https://github.com/o/r/pull/1" :=
  ⟨rfl, List.Perm.swap _ _ _, by decide⟩

end GhTrack
